import Mathlib

/-!
Verification development for the pharma intake backend.

The definitions below shallowly embed the Python source:
  - `backend/app/api/survey.py`   (questionnaire definition + stateless engine)
  - `backend/app/routes/runs.py`  (stateful run endpoints)
  - `backend/app/services/case_events.py` (case/event append service)
  - `backend/app/services/storage.py`     (in-memory run store)

Python dicts that preserve insertion order are embedded as association
lists; machine-level JSON values as an inductive `PyVal`; fallible code
returns `Except`/`Option`.
-/

/-- Association-list lookup, mirroring Python `d.get(k)` / `k in d`. -/
def lookupA {κ α : Type} [DecidableEq κ] : List (κ × α) → κ → Option α
  | [], _ => none
  | (k, v) :: rest, key => if k = key then some v else lookupA rest key

/-- Association-list insert-or-overwrite, mirroring Python `d[k] = v`. -/
def insertA {κ α : Type} [DecidableEq κ] : List (κ × α) → κ → α → List (κ × α)
  | [], key, v => [(key, v)]
  | (k, w) :: rest, key, v =>
      if k = key then (k, v) :: rest else (k, w) :: insertA rest key v

/-- Python `str.strip()` over the ASCII whitespace set: drop leading and
trailing whitespace characters. -/
def pyStrip (s : String) : String :=
  String.mk
    (((s.toList.dropWhile (fun c => c.isWhitespace)).reverse.dropWhile
        (fun c => c.isWhitespace)).reverse)

/-- Split a character list on a separator character (Python `str.split(sep)`
with no maxsplit). -/
def splitOnChar (sep : Char) : List Char → List (List Char)
  | [] => [[]]
  | c :: rest =>
    match splitOnChar sep rest with
    | [] => [[c]]
    | g :: gs => if c = sep then [] :: g :: gs else (c :: g) :: gs

/-- Rejoin character groups with ':' between them (undoes one split level,
giving Python `split(":", 2)` semantics for the tail). -/
def joinColon : List (List Char) → List Char
  | [] => []
  | [g] => g
  | g :: gs => g ++ ':' :: joinColon gs

/-- One option of a single_choice / scale node: `{"label": ..., "next": ...}`.
`next = none` embeds both an absent key and Python `None`. -/
structure OptionDef where
  label : String
  next : Option String
deriving DecidableEq, Repr

/-- One questionnaire node.  `qtype` is the raw `"type"` string of the source
(the engine branches on the string, with an UNSUPPORTED_TYPE fallback).
`options` is empty for free_text nodes; `next` is the node-level pointer used
by free_text nodes; `hints` holds the `placeholder` string and `required`
the `constraints.required` flag when the source node carries them. -/
structure Node where
  id : String
  text : String
  qtype : String
  options : List (String × OptionDef)
  next : Option String
  hints : Option String
  required : Option Bool
deriving DecidableEq, Repr

/-- Shorthand for a choice/scale node (no node-level next, no hints). -/
def mkChoice (i t ty : String) (opts : List (String × OptionDef))
    (req : Option Bool) : Node :=
  { id := i, text := t, qtype := ty, options := opts, next := none,
    hints := none, required := req }

/-- Shorthand for a free_text node (node-level next, optional hints). -/
def mkFree (i t : String) (nxt : Option String) (hint : Option String)
    (req : Option Bool) : Node :=
  { id := i, text := t, qtype := "free_text", options := [], next := nxt,
    hints := hint, required := req }

/-- Section `min_criteria_questions` of SURVEY_DEFINITION. -/
def min_criteria_questions : List (String × Node) :=
  [ ("q1", mkChoice "q1" "Who is reporting this information?" "single_choice"
      [ ("a", ⟨"I am a healthcare professional (HCP)", some "q2"⟩),
        ("b", ⟨"I am not a healthcare professional (consumer)", some "q2"⟩),
        ("c", ⟨"This is from a published article (literature)", some "q2"⟩),
        ("d", ⟨"This is from a partner organization", some "q2"⟩),
        ("e", ⟨"This is from a study", some "q2"⟩) ] (some true)),
    ("q2", mkChoice "q2" "Can we contact you for follow-up if needed?" "single_choice"
      [ ("a", ⟨"Yes", some "q2a"⟩),
        ("b", ⟨"No", some "q3"⟩) ] (some true)),
    ("q2a", mkChoice "q2a" "What is the best way to contact you?" "single_choice"
      [ ("a", ⟨"Email", some "q2a_email"⟩),
        ("b", ⟨"Phone", some "q2a_phone"⟩),
        ("c", ⟨"Other", some "q2a_other"⟩) ] (some true)),
    ("q2a_email", mkFree "q2a_email" "Enter your email address" (some "q3")
      (some "name@example.com") (some true)),
    ("q2a_phone", mkFree "q2a_phone" "Enter your phone number" (some "q3")
      (some "e.g., +1 555 555 5555") (some true)),
    ("q2a_other", mkFree "q2a_other" "Enter the best way to contact you" (some "q3")
      (some "e.g., secure portal message") (some true)),
    ("q3", mkChoice "q3" "Are you the person who experienced the event?" "single_choice"
      [ ("a", ⟨"Yes (I am the patient)", some "q4"⟩),
        ("b", ⟨"No (I am reporting for someone else)", some "q3a"⟩) ] (some true)),
    ("q3a", mkChoice "q3a" "What is your relationship to the patient?" "single_choice"
      [ ("a", ⟨"Parent/Guardian", some "q4"⟩),
        ("b", ⟨"Spouse/Partner", some "q4"⟩),
        ("c", ⟨"Family member", some "q4"⟩),
        ("d", ⟨"Caregiver", some "q4"⟩),
        ("e", ⟨"Friend/Other", some "q3a_other"⟩) ] (some true)),
    ("q3a_other", mkFree "q3a_other" "Describe your relationship to the patient" (some "q4")
      (some "e.g., roommate, coach, etc.") (some true)),
    ("q4", mkChoice "q4"
      "Please provide at least one detail about the person who experienced the event."
      "single_choice"
      [ ("a", ⟨"Age", some "q4a"⟩),
        ("b", ⟨"Sex", some "q4b"⟩),
        ("c", ⟨"Initials (optional identifier)", some "q4c"⟩),
        ("d", ⟨"I don\x27t know any of these", some "q4_missing"⟩) ] (some true)),
    ("q4a", mkFree "q4a" "Enter the patient\x27s age (number only)" (some "q4a_unit")
      (some "e.g., 34") (some true)),
    ("q4a_unit", mkChoice "q4a_unit" "Select the age unit" "single_choice"
      [ ("a", ⟨"Years", some "q5"⟩),
        ("b", ⟨"Months", some "q5"⟩),
        ("c", ⟨"Days", some "q5"⟩),
        ("d", ⟨"Unknown", some "q5"⟩) ] (some true)),
    ("q4b", mkChoice "q4b" "Select the patient\x27s sex" "single_choice"
      [ ("a", ⟨"Male", some "q5"⟩),
        ("b", ⟨"Female", some "q5"⟩),
        ("c", ⟨"Other", some "q5"⟩),
        ("d", ⟨"Unknown", some "q5"⟩) ] (some true)),
    ("q4c", mkFree "q4c" "Enter the patient\x27s initials" (some "q5")
      (some "e.g., J.D.") (some true)),
    ("q4_missing", mkChoice "q4_missing"
      "Understood. Without at least one patient detail (age, sex, or initials), the report may be incomplete. Would you like to proceed anyway?"
      "single_choice"
      [ ("a", ⟨"Yes, proceed", some "q5"⟩),
        ("b", ⟨"No, go back", some "q4"⟩) ] (some true)),
    ("q5", mkFree "q5" "What product do you believe is related to the event?" (some "q6")
      (some "e.g., medication/vaccine name") (some true)),
    ("q6", mkFree "q6" "What happened?" (some "GOTO:ae_selector:q1")
      (some "Describe the symptoms or event in your own words") (some true)) ]

/-- Section `ae_selector` of SURVEY_DEFINITION. -/
def ae_selector : List (String × Node) :=
  [ ("q1", mkChoice "q1" "Which symptom category best matches?" "single_choice"
      [ ("a", ⟨"Abdominal / GI", some "GOTO:abdominal_questions:q1"⟩),
        ("b", ⟨"Headache / Neuro", some "GOTO:headache_questions:q1"⟩),
        ("c", ⟨"Vomiting", some "GOTO:vomiting_questions:q1"⟩) ] none) ]

/-- Section `abdominal_questions` of SURVEY_DEFINITION. -/
def abdominal_questions : List (String × Node) :=
  [ ("q1", mkChoice "q1" "When did this symptom start?" "single_choice"
      [ ("a", ⟨"Exact date, if known", some "q1a"⟩),
        ("b", ⟨"Approximate date", some "q1b"⟩) ] none),
    ("q1a", mkFree "q1a" "Enter the exact date (YYYY-MM-DD)" (some "q2")
      (some "YYYY-MM-DD") (some true)),
    ("q1b", mkFree "q1b" "Enter an approximate date (e.g., \x27about 2 weeks ago\x27)" (some "q2")
      (some "e.g., about 2 weeks ago") (some true)),
    ("q2", mkChoice "q2" "Do you still have pain?" "single_choice"
      [ ("a", ⟨"Yes. Go to #4.", some "q4"⟩),
        ("b", ⟨"No.", some "q3"⟩) ] none),
    ("q3", mkChoice "q3" "When did the symptom stop?" "single_choice"
      [ ("a", ⟨"Exact date, if known", some "q4"⟩),
        ("b", ⟨"Approximate date", some "q3b"⟩) ] none),
    ("q3a", mkFree "q3a" "Enter the exact date (YYYY-MM-DD)" (some "q4")
      (some "YYYY-MM-DD") (some true)),
    ("q3b", mkFree "q3b"
      "Enter an approximate date the symptoms stopped (e.g., \x27about 2 weeks ago\x27)" (some "q4")
      (some "e.g., about 2 weeks ago") (some true)),
    ("q4", mkChoice "q4" "Is (was) the pain:" "single_choice"
      [ ("a", ⟨"Sharp?", some "q5"⟩),
        ("b", ⟨"Dull?", some "q5"⟩),
        ("c", ⟨"Throbbing?", some "q5"⟩),
        ("d", ⟨"Burning?", some "q5"⟩),
        ("e", ⟨"Cramping?", some "q5"⟩) ] none),
    ("q5", mkChoice "q5"
      "How would you grade the intensity of the pain? (Refer to visual analog pain scale)"
      "scale"
      [ ("a", ⟨"2 - Hurts Little Bit", some "q6"⟩),
        ("b", ⟨"4 - Hurts Little More", some "q6"⟩),
        ("c", ⟨"6 - Hurts Even More", some "q6"⟩),
        ("d", ⟨"8 - Hurts Whole Lot", some "q6"⟩),
        ("e", ⟨"10 - Hurts Worst", some "q6"⟩) ] none),
    ("q6", mkChoice "q6" "Does (did) the symptom disrupt your sleep?" "single_choice"
      [ ("a", ⟨"Yes.", some "q7"⟩),
        ("b", ⟨"No.", some "q7"⟩),
        ("c", ⟨"N/A. I did not have pain during sleep.", some "q7"⟩) ] none),
    ("q7", mkChoice "q7" "Is (was) the abdominal pain localized or generalized?" "single_choice"
      [ ("a", ⟨"Localized. (Confined to one specific area of the body)", some "q8"⟩),
        ("b", ⟨"Generalized. (Affect the entire body or a large region of it)", some "q9"⟩) ] none),
    ("q8", mkChoice "q8"
      "Where in the abdomen is (was) the pain mainly located? (Refer to figure 1.)"
      "single_choice"
      [ ("a", ⟨"Upper right side (RUQ)", some "q9"⟩),
        ("b", ⟨"Lower right side (RLQ)", some "q9"⟩),
        ("c", ⟨"Upper left side (LUQ)", some "q9"⟩),
        ("d", ⟨"Lower left side (LLQ)", some "q9"⟩),
        ("e", ⟨"Upper central (epigastric)", some "q9"⟩),
        ("f", ⟨"Middle central (periumbilical)", some "q9"⟩),
        ("g", ⟨"Lower central (suprapubic)", some "q9"⟩) ] none),
    ("q9", mkChoice "q9" "Does (did) the pain radiate?" "single_choice"
      [ ("a", ⟨"Yes.", some "q10"⟩),
        ("b", ⟨"No. Go to #11.", some "q11"⟩) ] none),
    ("q10", mkFree "q10" "Where does (did) the pain radiate? (Refer to figure 1.)" (some "q11")
      (some "e.g., back, shoulder, groin") (some true)),
    ("q11", mkChoice "q11" "If you are still having this symptom, is it:" "single_choice"
      [ ("a", ⟨"Worsening?", some "q12"⟩),
        ("b", ⟨"Stable?", some "q12"⟩),
        ("c", ⟨"Improving?", some "q12"⟩),
        ("d", ⟨"Unsure.", some "q12"⟩),
        ("e", ⟨"No longer having pain.", some "q12"⟩) ] none),
    ("q12", mkChoice "q12" "The symptom" "single_choice"
      [ ("a", ⟨"Has not affected my daily routine at all.", some "q13"⟩),
        ("b", ⟨"Has caused me to cancel some of my daily routine.", some "q13"⟩),
        ("c", ⟨"Has caused me to cancel all of my daily routine.", some "q13"⟩) ] none),
    ("q13", mkChoice "q13"
      "Is (was) there any abdominal tenderness (area tender to touch)?" "single_choice"
      [ ("a", ⟨"Yes", some "q14"⟩),
        ("b", ⟨"No", some "q14"⟩) ] none),
    ("q14", mkChoice "q14"
      "Have you had any recent trauma before the symptom began?" "single_choice"
      [ ("a", ⟨"Yes.", some "q15"⟩),
        ("b", ⟨"No.", some "q15"⟩) ] none),
    ("q15", mkChoice "q15"
      "Is (was) the abdominal pain positional (better/worse in a position)?" "single_choice"
      [ ("a", ⟨"Yes.", some "q16"⟩),
        ("b", ⟨"No.", some "q16"⟩) ] none),
    ("q16", mkChoice "q16"
      "Does (did) anything appear to lessen or improve the symptom?" "single_choice"
      [ ("a", ⟨"Yes. What?", some "q16a"⟩),
        ("b", ⟨"No.", some "q17"⟩) ] none),
    ("q16a", mkFree "q16a" "What improves the symptom?" (some "q17")
      (some "e.g., rest, heat, medication name") (some true)),
    ("q17", mkChoice "q17"
      "Does (did) anything appear to worsen the symptom?" "single_choice"
      [ ("a", ⟨"Yes. What?", some "q17a"⟩),
        ("b", ⟨"No.", some "q18"⟩) ] none),
    ("q17a", mkFree "q17a" "What worsens the symptom?" (some "q18")
      (some "e.g., certain foods, movement") (some true)),
    ("q18", mkChoice "q18"
      "Does (did) taking a deep breath worsen the abdominal pain?" "single_choice"
      [ ("a", ⟨"Yes.", some "q19"⟩),
        ("b", ⟨"No.", some "q19"⟩) ] none),
    ("q19", mkChoice "q19" "Are you under any unusual stress?" "single_choice"
      [ ("a", ⟨"Yes. What?", some "q19a"⟩),
        ("b", ⟨"No.", some "q20"⟩) ] none),
    ("q19a", mkFree "q19a" "Describe the stress:" (some "q20")
      (some "brief description") (some true)),
    ("q20", mkChoice "q20" "Did anything appear to cause this symptom?" "single_choice"
      [ ("a", ⟨"Yes. What?", some "q20a"⟩),
        ("b", ⟨"No.", none⟩) ] none),
    ("q20a", mkFree "q20a" "What do you think caused the symptom?" (some "q21")
      (some "brief description") (some true)) ]

/-- Section `headache_questions` of SURVEY_DEFINITION: declared, empty. -/
def headache_questions : List (String × Node) := []

/-- The full SURVEY_DEFINITION dict of `backend/app/api/survey.py`:
a mapping from section name to section, in source order. -/
def SURVEY_DEFINITION : List (String × List (String × Node)) :=
  [ ("min_criteria_questions", min_criteria_questions),
    ("ae_selector", ae_selector),
    ("abdominal_questions", abdominal_questions),
    ("headache_questions", headache_questions) ]

/-- `START_ID = "q1"` from survey.py. -/
def START_ID : String := "q1"

/-- Python truthiness / blank test `not val.strip()` for a trimmed string. -/
def isoDateMatch (s : String) : Bool :=
  match s.toList with
  | [a, b, c, d, e, f, g, h, i, j] =>
      a.isDigit && b.isDigit && c.isDigit && d.isDigit && (e == '-') &&
      f.isDigit && g.isDigit && (h == '-') && i.isDigit && j.isDigit
  | _ => false

/-- Numeric value of a list of ASCII digits. -/
def digitsVal (cs : List Char) : Int :=
  Int.ofNat (cs.foldl (fun n c => 10 * n + (c.toNat - '0'.toNat)) 0)

/-- Python `\w` (ASCII part): letter, digit or underscore. -/
def isWordChar (c : Char) : Bool := c.isAlphanum || c == '_'

/-- `_parse_scale` of survey.py: `re.match(r"\s*(\d+)\b", label)` and
`int(group(1))`, i.e. optional leading whitespace, a maximal digit run, and a
word boundary after it. -/
def parseScale (label : String) : Option Int :=
  let cs := label.toList.dropWhile (fun c => c.isWhitespace)
  let digits := cs.takeWhile (fun c => c.isDigit)
  let rest := cs.dropWhile (fun c => c.isDigit)
  if digits.isEmpty then none
  else
    match rest with
    | [] => some (digitsVal digits)
    | c :: _ => if isWordChar c then none else some (digitsVal digits)

/-- A stored answer record.  free_text records are `{"type", "value"}`;
choice/scale records are `{"type", "key", "label"}` plus, for scale only, a
`"score"` key.  A scale record whose label fails to parse stores score `None`;
since every reader accesses score with `.get`, an absent score key and a
stored `None` are observationally identical and both embed as `none`. -/
inductive AnswerRecord where
  | freeRec (value : String)
  | choiceRec (qtype : String) (key : String) (label : String) (score : Option Int)
deriving DecidableEq, Repr

/-- Python `record.get("value")`. -/
def getValue : AnswerRecord → Option String
  | .freeRec v => some v
  | .choiceRec _ _ _ _ => none

/-- Python `record.get("key")`. -/
def getKey : AnswerRecord → Option String
  | .freeRec _ => none
  | .choiceRec _ k _ _ => some k

/-- Python `record.get("label")`. -/
def getLabel : AnswerRecord → Option String
  | .freeRec _ => none
  | .choiceRec _ _ l _ => some l

/-- Python `record.get("score")`. -/
def getScore : AnswerRecord → Option Int
  | .freeRec _ => none
  | .choiceRec _ _ _ s => s

/-- The summary dict produced by `_build_summary`. -/
structure Summary where
  started_at_precision : Option String
  started_at_value : Option String
  still_pain : Option Bool
  pain_quality : Option String
  pain_scale : Option Int
  requires_attention : Bool
deriving DecidableEq, Repr

/-- The summary record assembled at the end of `_build_summary`:
`requires_attention` is `bool(pain_scale is not None and pain_scale >= 8)`. -/
def summaryOf (prec val : Option String) (sp : Option Bool) (pq : Option String)
    (ps : Option Int) : Summary :=
  { started_at_precision := prec,
    started_at_value := val,
    still_pain := sp,
    pain_quality := pq,
    pain_scale := ps,
    requires_attention :=
      match ps with
      | some n => decide (8 <= n)
      | none => false }

/-- `_build_summary` of survey.py.  The source indexes
`answers_by_id["q1a"]["value"]` and `answers_by_id["q2"]["key"]` directly, so
a map holding a record of the wrong shape there raises KeyError; that
exception is embedded as `none`. -/
def build_summary (m : List (String × AnswerRecord)) : Option Summary :=
  let startPart : Option (Option String × Option String) :=
    match lookupA m "q1a" with
    | some r => (getValue r).map (fun v => (some "exact", some v))
    | none =>
      match lookupA m "q1b" with
      | some r => (getValue r).map (fun v => (some "approx", some v))
      | none => some (none, none)
  match startPart with
  | none => none
  | some (prec, val) =>
    let stillPart : Option (Option Bool) :=
      match lookupA m "q2" with
      | some r => (getKey r).map (fun k => some (k = "a"))
      | none => some none
    match stillPart with
    | none => none
    | some sp =>
      some (summaryOf prec val sp ((lookupA m "q4").bind getLabel)
              ((lookupA m "q5").bind getScore))

/-- Error codes raised by the survey engine. -/
inductive ErrCode where
  | FLOW_DIVERGENCE | BROKEN_DEFINITION | MISSING_ANSWER
  | DATE_FORMAT | INVALID_ANSWER | UNSUPPORTED_TYPE
deriving DecidableEq, Repr

/-- One step of a client-submitted history (`HistoryStep` request model).
The engine body guards `val is None`, so the answer is embedded as an
`Option`; `none` is an absent answer. -/
structure HistoryStep where
  question_id : String
  answer : Option String
deriving DecidableEq, Repr

/-- Result of processing one history step inside the evaluate loop. -/
inductive StepOutcome where
  | err (status : Nat) (code : ErrCode)
  | ok (answers : List (String × AnswerRecord)) (next : Option String)
deriving DecidableEq, Repr

/-- The body of the `for step in steps` loop of `evaluate_survey_progress`,
up to (not including) the advance-or-finish part: checks flow position,
validates the answer against the node at the cursor in the
`abdominal_questions` section, records the answer, and yields the resolved
`next` pointer. -/
def stepEval (cursor : String) (answers : List (String × AnswerRecord))
    (step : HistoryStep) : StepOutcome :=
  if step.question_id ≠ cursor then .err 400 .FLOW_DIVERGENCE
  else
    match lookupA abdominal_questions cursor with
    | none => .err 500 .BROKEN_DEFINITION
    | some node =>
      if node.qtype = "free_text" then
        match step.answer with
        | none => .err 400 .MISSING_ANSWER
        | some val =>
          if pyStrip val = "" then .err 400 .MISSING_ANSWER
          else if node.id = "q1a" ∧ isoDateMatch (pyStrip val) = false then
            .err 400 .DATE_FORMAT
          else .ok (insertA answers cursor (.freeRec (pyStrip val))) node.next
      else if node.qtype = "single_choice" ∨ node.qtype = "scale" then
        match step.answer with
        | none => .err 400 .MISSING_ANSWER
        | some key =>
          if pyStrip key = "" then .err 400 .MISSING_ANSWER
          else
            match lookupA node.options key with
            | none => .err 400 .INVALID_ANSWER
            | some opt =>
              .ok (insertA answers cursor
                    (.choiceRec node.qtype key opt.label
                      (if node.qtype = "scale" then parseScale opt.label else none)))
                  opt.next
      else .err 400 .UNSUPPORTED_TYPE

/-- Outcome of `evaluate_survey_progress`: a rendered next question
(`done=false`), a terminal summary (`done=true`), an HTTP error, or an
unhandled Python exception (`crash`). -/
inductive EvalResult where
  | ask (node : Node)
  | done (summary : Summary)
  | fail (status : Nat) (code : ErrCode)
  | crash
deriving DecidableEq, Repr

/-- The recursive part of `evaluate_survey_progress`: consume history steps
one at a time, threading the cursor and the accumulated answer map. -/
def evalGo : String → List (String × AnswerRecord) → List HistoryStep → EvalResult
  | cursor, _, [] =>
    (match lookupA abdominal_questions cursor with
     | some n => .ask n
     | none => .crash)
  | cursor, answers, step :: rest =>
    match stepEval cursor answers step with
    | .err s c => .fail s c
    | .ok answers2 nextId =>
      match nextId with
      | none =>
        (match build_summary answers2 with
         | some s => .done s
         | none => .crash)
      | some nid =>
        if (lookupA abdominal_questions nid).isSome then evalGo nid answers2 rest
        else .fail 500 .BROKEN_DEFINITION

/-- `evaluate_survey_progress` of survey.py (POST /api/survey/evaluate):
replay a history against the `abdominal_questions` section starting at
`START_ID` with an empty answer map. -/
def evaluate_survey_progress (history : List HistoryStep) : EvalResult :=
  evalGo START_ID [] history

/-- Parse a cross-section jump token, mirroring `next_id.startswith("GOTO:")`
followed by `next_id.split(":", 2)` in runs.py: yields the target section and
target question id. -/
def gotoTarget (s : String) : Option (String × String) :=
  match splitOnChar ':' s.toList with
  | g :: sec :: rest =>
    if g = ['G', 'O', 'T', 'O'] then
      if rest.isEmpty then none
      else some (String.mk sec, String.mk (joinColon rest))
    else none
  | _ => none

/-- All (section name, question id, next value) triples of SURVEY_DEFINITION:
the node-level `next` of every node and the `next` of every option. -/
def sectionNexts (secName : String) (sec : List (String × Node)) :
    List (String × String × Option String) :=
  sec.flatMap (fun p =>
    (secName, p.1, p.2.next) ::
      p.2.options.map (fun o => (secName, p.1, o.2.next)))

/-- Every `next` occurrence in the whole questionnaire definition. -/
def allNexts : List (String × String × Option String) :=
  SURVEY_DEFINITION.flatMap (fun s => sectionNexts s.1 s.2)

/-- A `next` value resolves when it is absent, is the sentinel "END", is a
GOTO token whose target section and question id both exist, or is a question
id present in its own section. -/
def nextResolves (secName : String) (nxt : Option String) : Bool :=
  match nxt with
  | none => true
  | some s =>
    if s = "END" then true
    else
      match gotoTarget s with
      | some (tsec, tqid) =>
        (match lookupA SURVEY_DEFINITION tsec with
         | some tmap => (lookupA tmap tqid).isSome
         | none => false)
      | none =>
        (match lookupA SURVEY_DEFINITION secName with
         | some smap => (lookupA smap s).isSome
         | none => false)

/-- A reference into one of the two known-empty symptom branches
(`headache_questions` / `vomiting_questions`), the documented exception. -/
def exceptedRef (nxt : Option String) : Bool :=
  match nxt with
  | none => false
  | some s =>
    match gotoTarget s with
    | some (tsec, _) => tsec == "headache_questions" || tsec == "vomiting_questions"
    | none => false

/-- The resolution invariant exactly as the claim states it: every next value
resolves or points into one of the two known-empty sections. -/
def claim3Check : Bool :=
  allNexts.all (fun e => nextResolves e.1 e.2.2 || exceptedRef e.2.2)

/-- The invariant additionally excepting `abdominal_questions.q20a`, whose
node-level next "q21" names a node that does not exist. -/
def claim3CheckAmended : Bool :=
  allNexts.all (fun e =>
    nextResolves e.1 e.2.2 || exceptedRef e.2.2 ||
      (e == ("abdominal_questions", "q20a", some "q21")))

/-- Static side of the q3a unreachability claim: no node-level or
option-level next in `abdominal_questions` refers to q3a. -/
def abdominalNextsAvoidQ3a : Bool :=
  abdominal_questions.all (fun p =>
    (p.2.next != some "q3a") && p.2.options.all (fun o => o.2.next != some "q3a"))

/-- Shorthand: a history step with a present answer. -/
def hstep (q a : String) : HistoryStep := ⟨q, some a⟩

/-- The golden abdominal-branch history of the spec (testable property 5). -/
def goldenHistory : List HistoryStep :=
  [hstep "q1" "a", hstep "q1a" "2025-09-01", hstep "q2" "a", hstep "q4" "a",
   hstep "q5" "d", hstep "q6" "a", hstep "q7" "a", hstep "q8" "a",
   hstep "q9" "b", hstep "q11" "a", hstep "q12" "a", hstep "q13" "a",
   hstep "q14" "a", hstep "q15" "a", hstep "q16" "b", hstep "q17" "b",
   hstep "q18" "a", hstep "q19" "b", hstep "q20" "b"]

/-- The same history with q5 answered "a" (testable property 6). -/
def goldenVariantHistory : List HistoryStep :=
  [hstep "q1" "a", hstep "q1a" "2025-09-01", hstep "q2" "a", hstep "q4" "a",
   hstep "q5" "a", hstep "q6" "a", hstep "q7" "a", hstep "q8" "a",
   hstep "q9" "b", hstep "q11" "a", hstep "q12" "a", hstep "q13" "a",
   hstep "q14" "a", hstep "q15" "a", hstep "q16" "b", hstep "q17" "b",
   hstep "q18" "a", hstep "q19" "b", hstep "q20" "b"]

/-- A Python dict key as seen by `json.dumps`: a string, a key kind dumps
coerces to a string (int/float/bool/None, collapsed to `kint`), or a key kind
dumps rejects with TypeError (e.g. a tuple), collapsed to `kother`. -/
inductive PyKey where
  | kstr (s : String)
  | kint (n : Int)
  | kother
deriving DecidableEq, Repr

/-- A Python value inside an event payload: JSON-representable constructors
plus `vobj`, an object `json.dumps` cannot serialize (a set, a datetime, an
arbitrary instance, ...). -/
inductive PyVal where
  | vnull
  | vbool (b : Bool)
  | vint (n : Int)
  | vstr (s : String)
  | vlist (items : List PyVal)
  | vdict (entries : List (PyKey × PyVal))
  | vobj

/-- Whether `json.dumps` accepts this dict key. -/
def serializableKey : PyKey → Bool
  | .kstr _ => true
  | .kint _ => true
  | .kother => false

mutual
/-- Whether `json.dumps(payload)` succeeds on this value. -/
def serializableV : PyVal → Bool
  | .vnull => true
  | .vbool _ => true
  | .vint _ => true
  | .vstr _ => true
  | .vlist items => serializableL items
  | .vdict es => serializableE es
  | .vobj => false

/-- `json.dumps` succeeds on every element of the list. -/
def serializableL : List PyVal → Bool
  | [] => true
  | v :: rest => serializableV v && serializableL rest

/-- `json.dumps` succeeds on every key and value of the dict entries. -/
def serializableE : List (PyKey × PyVal) → Bool
  | [] => true
  | (k, v) :: rest => serializableKey k && serializableV v && serializableE rest
end

/-- Python `isinstance(payload, dict)`. -/
def isDict : PyVal → Bool
  | .vdict _ => true
  | _ => false

/-- The explicit key check of `append_event`:
`any(not isinstance(k, str) for k in payload.keys())` negated — only the
top-level keys are inspected. -/
def topKeysAllString : PyVal → Bool
  | .vdict es => es.all (fun e => match e.1 with | .kstr _ => true | _ => false)
  | _ => true

/-- One `CaseEventLog` row.  Event ids (uuid4 assigned at flush) are embedded
as a counter; times as naturals. -/
structure EventRow where
  id : Nat
  case_id : Nat
  event_type : String
  occurred_at : Nat
  actor_type : String
  actor_id : Option String
  reason : Option String
  payload : PyVal

/-- One `Case` row (id from uuid4, embedded as a counter). -/
structure Case where
  id : Nat
  received_at : Nat
  status : String
  initial_awareness_at : Option Nat
deriving DecidableEq, Repr

/-- The relevant slice of the open unit-of-work: rows added so far plus the
id allocator that stands in for uuid4/flush id assignment. -/
structure DB where
  cases : List Case
  events : List EventRow
  nextId : Nat

/-- One optional envelope entry, added only when the value is truthy
(`if intake_channel:` skips both None and the empty string). -/
def optEntry (key : String) (v : Option String) : List (PyKey × PyVal) :=
  match v with
  | some s => if s = "" then [] else [(.kstr key, .vstr s)]
  | none => []

/-- `build_case_created_payload` of case_events.py. -/
def build_case_created_payload (source : String)
    (intake_channel external_ref : Option String) : PyVal :=
  .vdict ([(.kstr "schema_version", .vstr "case.created.v1"),
           (.kstr "source", .vstr source)] ++
          optEntry "intake_channel" intake_channel ++
          optEntry "external_ref" external_ref)

/-- `append_event` of case_events.py: validate the payload (dict shape,
string-only top-level keys, json.dumps succeeds), default `payload` to an
empty dict and `occurred_at` to the current time `now`, then add exactly one
event row.  Validation failures raise ValueError (InvalidInput) before any
row is added, so the db is returned unchanged there. -/
def append_event (db : DB) (case_id : Nat) (event_type : String)
    (payload : Option PyVal) (actor_type : String) (actor_id : Option String)
    (reason : Option String) (occurred_at : Option Nat) (now : Nat) :
    DB × Except String EventRow :=
  let payload := match payload with
                 | none => PyVal.vdict []
                 | some p => p
  if isDict payload = false then (db, .error "payload must be a dict")
  else if topKeysAllString payload = false then
    (db, .error "payload keys must be strings")
  else if serializableV payload = false then
    (db, .error "payload is not JSON-serializable")
  else
    let occ := match occurred_at with
               | none => now
               | some t => t
    let row : EventRow :=
      ⟨db.nextId, case_id, event_type, occ, actor_type, actor_id, reason, payload⟩
    ({ db with events := db.events ++ [row], nextId := db.nextId + 1 }, .ok row)

/-- `create_case_from_intake` of case_events.py: reject an absent or non-dict
intake payload with ValueError; otherwise create a Case (status "open", no
initial awareness, received_at defaulted to `now`), then append the
`case.created` event and the `intake.received` event in order.  An exception
raised by an inner `append_event` propagates, leaving the rows added so far
pending in the unit of work. -/
def create_case_from_intake (db : DB) (intake_payload : Option PyVal)
    (source : String) (intake_channel external_ref : Option String)
    (actor_type : String) (actor_id : Option String)
    (received_at : Option Nat) (now : Nat) : DB × Except String Case :=
  match intake_payload with
  | none => (db, .error "intake payload must be a dict")
  | some p =>
    if isDict p = false then (db, .error "intake payload must be a dict")
    else
      let recv := match received_at with
                  | none => now
                  | some t => t
      let case : Case := ⟨db.nextId, recv, "open", none⟩
      let db1 : DB := { db with cases := db.cases ++ [case], nextId := db.nextId + 1 }
      match append_event db1 case.id "case.created"
              (some (build_case_created_payload source intake_channel external_ref))
              actor_type actor_id none none now with
      | (db2, .error e) => (db2, .error e)
      | (db2, .ok _) =>
        let intakeEnv : PyVal :=
          .vdict ([(.kstr "schema_version", .vstr "intake.received.v1"),
                   (.kstr "source", .vstr source),
                   (.kstr "raw", p)] ++
                  optEntry "external_ref" external_ref)
        match append_event db2 case.id "intake.received" (some intakeEnv)
                actor_type actor_id none none now with
        | (db3, .error e) => (db3, .error e)
        | (db3, .ok _) => (db3, .ok case)

/-- One Python object in the run store's object graph: an immutable leaf
(string/number/None rendered as a tag) or a composite (dict/list) whose
fields hold addresses of child objects. -/
inductive HObj where
  | atom (s : String)
  | comp (tag : String) (children : List (String × Nat))
deriving DecidableEq, Repr

/-- The mutable Python heap underlying the run store: an allocation counter
and a map from address to object. -/
structure PyHeap where
  next : Nat
  mem : List (Nat × HObj)
deriving DecidableEq, Repr

/-- Dereference an address. -/
def hlookup (h : PyHeap) (a : Nat) : Option HObj := lookupA h.mem a

/-- In-place mutation of the object at an address (what caller code does to a
record it holds, e.g. `run["status"] = ...`). -/
def hupdate (h : PyHeap) (a : Nat) (o : HObj) : PyHeap :=
  { h with mem := insertA h.mem a o }

/-- Allocate a fresh object, returning its address. -/
def halloc (h : PyHeap) (o : HObj) : PyHeap × Nat :=
  (⟨h.next + 1, (h.next, o) :: h.mem⟩, h.next)

/-- All child addresses of an object lie below `n`. -/
def objBelowB (o : HObj) (n : Nat) : Bool :=
  match o with
  | .atom _ => true
  | .comp _ cs => cs.all (fun p => decide (p.2 < n))

/-- Heap well-formedness: every allocated address and every child address
lies below the allocation counter. -/
def heapWF (h : PyHeap) : Bool :=
  h.mem.all (fun p => decide (p.1 < h.next) && objBelowB p.2 h.next)

mutual
/-- `copy.deepcopy` on an object graph: clone the object at `a` into fresh
addresses, depth-bounded by fuel (`none` = fuel exhausted or dangling
address; Python object graphs reached here are finite trees). -/
def deepcopyA : Nat → PyHeap → Nat → Option (PyHeap × Nat)
  | 0, _, _ => none
  | f + 1, h, a =>
    match hlookup h a with
    | none => none
    | some (.atom s) => some (halloc h (.atom s))
    | some (.comp t cs) =>
      match deepcopyL f h cs with
      | none => none
      | some (h1, cs1) => some (halloc h1 (.comp t cs1))

/-- Deep-copy each child in order, threading the heap. -/
def deepcopyL : Nat → PyHeap → List (String × Nat) → Option (PyHeap × List (String × Nat))
  | 0, _, _ => none
  | _ + 1, h, [] => some (h, [])
  | f + 1, h, (k, a) :: rest =>
    match deepcopyA f h a with
    | none => none
    | some (h1, a1) =>
      match deepcopyL f h1 rest with
      | none => none
      | some (h2, rest1) => some (h2, (k, a1) :: rest1)
end

/-- The pure value denoted by an object graph (what Python equality and
serialization observe, independent of addresses). -/
inductive VTree where
  | atom (s : String)
  | comp (tag : String) (children : List (String × VTree))

mutual
/-- Read the value tree rooted at an address, depth-bounded by fuel. -/
def readA : Nat → PyHeap → Nat → Option VTree
  | 0, _, _ => none
  | f + 1, h, a =>
    match hlookup h a with
    | none => none
    | some (.atom s) => some (.atom s)
    | some (.comp t cs) =>
      match readL f h cs with
      | none => none
      | some ts => some (.comp t ts)

/-- Read the value trees of a child list. -/
def readL : Nat → PyHeap → List (String × Nat) → Option (List (String × VTree))
  | 0, _, _ => none
  | _ + 1, _, [] => some []
  | f + 1, h, (k, a) :: rest =>
    match readA f h a with
    | none => none
    | some t =>
      match readL f h rest with
      | none => none
      | some ts => some ((k, t) :: ts)
end

mutual
/-- Address `t` is reachable (within fuel) from the object rooted at
`root` — the addresses a caller holding `root` can mutate through. -/
def reachB : Nat → PyHeap → Nat → Nat → Bool
  | 0, _, _, _ => false
  | f + 1, h, root, t =>
    (root == t) ||
      (match hlookup h root with
       | some (.comp _ cs) => reachL f h cs t
       | _ => false)

/-- Reachability from any child of a child list. -/
def reachL : Nat → PyHeap → List (String × Nat) → Nat → Bool
  | 0, _, _, _ => false
  | _ + 1, _, [], _ => false
  | f + 1, h, (_, a) :: rest, t => reachB f h a t || reachL f h rest t
end

/-- The in-memory run store: run id to the address of the stored record's
root object, over a heap.  (`InMemoryRunStore._runs` plus the object graphs
the dict values reference.) -/
structure StoreState where
  runs : List (String × Nat)
  heap : PyHeap
deriving DecidableEq, Repr

/-- Store well-formedness: the heap is well-formed and every stored root is
an allocated address. -/
def storeWF (st : StoreState) : Bool :=
  heapWF st.heap && st.runs.all (fun p => decide (p.2 < st.heap.next))

/-- `InMemoryRunStore.get_run`: return `copy.deepcopy` of the stored record
(or None when the id is unknown).  The returned address is the caller's
handle; the heap grows by the copy. -/
def get_run (fuel : Nat) (st : StoreState) (rid : String) :
    Option (StoreState × Nat) :=
  match lookupA st.runs rid with
  | none => none
  | some root =>
    match deepcopyA fuel st.heap root with
    | none => none
    | some (h1, a1) => some ({ st with heap := h1 }, a1)

/-- `InMemoryRunStore.create_run`: reject a duplicate id, store a deep copy
of the caller's record.  (The created_at/updated_at stamping mutates only
the private copy before it is stored and is elided here.) -/
def create_run (fuel : Nat) (st : StoreState) (rid : String) (root : Nat) :
    Option StoreState :=
  if (lookupA st.runs rid).isSome then none
  else
    match deepcopyA fuel st.heap root with
    | none => none
    | some (h1, a1) => some ⟨insertA st.runs rid a1, h1⟩

/-- `InMemoryRunStore.replace_run`: require the id to exist, overwrite the
binding with a deep copy of the caller's record. -/
def replace_run (fuel : Nat) (st : StoreState) (rid : String) (root : Nat) :
    Option StoreState :=
  if (lookupA st.runs rid).isSome then
    match deepcopyA fuel st.heap root with
    | none => none
    | some (h1, a1) => some ⟨insertA st.runs rid a1, h1⟩
  else none

-- ===================== supporting lemmas =====================

/-- Every summary produced by `_build_summary` is a `summaryOf` record. -/
theorem build_summary_shape (m : List (String × AnswerRecord)) (s : Summary)
    (h : build_summary m = some s) :
    ∃ prec val sp pq ps, s = summaryOf prec val sp pq ps := by
  unfold build_summary at h
  repeat
    any_goals
      first
        | split at h
        | simp only [] at h
  all_goals cases h
  all_goals exact ⟨_, _, _, _, _, rfl⟩

-- ===================== claim theorems =====================

/-- C1: the begin operation is specified to allocate a run, initialise it at
min_criteria/q1 and return the q1 rendering; but the run-routes module binds
`QMAP = SURVEY_DEFINITION["questions"]` at import time, and no section named
"questions" exists (the sections are exactly the four listed), so the module
raises KeyError before `begin` can ever run. -/
theorem C1_begin_run_qmap_key_missing :
    lookupA SURVEY_DEFINITION "questions" = none ∧
    SURVEY_DEFINITION.map Prod.fst =
      ["min_criteria_questions", "ae_selector", "abdominal_questions",
       "headache_questions"] :=
  ⟨rfl, rfl⟩

/-- C2: the stateless advance operation with no question id is specified to
return the rendering of min_criteria's first node q1; but `survey_next` looks
up section key "min_criteria" while the definition's key is
"min_criteria_questions" (which does hold a node at START_ID), so the lookup
raises KeyError instead of rendering q1. -/
theorem C2_survey_next_section_key_missing :
    lookupA SURVEY_DEFINITION "min_criteria" = none ∧
    lookupA SURVEY_DEFINITION "min_criteria_questions" = some min_criteria_questions ∧
    (lookupA min_criteria_questions START_ID).isSome = true :=
  ⟨rfl, rfl, rfl⟩

/-- C3 counterexample: the next-resolution invariant fails as stated: the
node-level next "q21" of abdominal_questions.q20a neither resolves nor is a
reference into the two known-empty sections. -/
theorem C3_counterexample :
    claim3Check = false ∧
    ("abdominal_questions", "q20a", some "q21") ∈ allNexts ∧
    nextResolves "abdominal_questions" (some "q21") = false ∧
    exceptedRef (some "q21") = false :=
  ⟨rfl, by decide, rfl, rfl⟩

/-- C3 (amended): every option-level or node-level next value in every
defined section is absent, "END", a GOTO token whose target section and id
exist, or an id of the same section — except references into
headache_questions / vomiting_questions, and except abdominal_questions.q20a,
whose next "q21" names a node that does not exist. -/
theorem C3_next_resolution_amended : claim3CheckAmended = true := rfl

/-- C4: replaying the golden abdominal-branch history through the evaluate
operation terminates with done=true and a summary with exact start precision,
still_pain, pain quality "Sharp?", pain scale 8 and requires_attention. -/
theorem C4_golden_replay :
    evaluate_survey_progress goldenHistory =
      .done { started_at_precision := some "exact",
              started_at_value := some "2025-09-01",
              still_pain := some true,
              pain_quality := some "Sharp?",
              pain_scale := some 8,
              requires_attention := true } :=
  rfl

/-- C5: for every answers map, `requires_attention` of the produced summary
holds iff `pain_scale` is present and at least 8; and the golden replay with
q5 answered "a" yields pain_scale 2 and requires_attention false. -/
theorem C5_requires_attention_iff :
    (∀ (m : List (String × AnswerRecord)) (s : Summary),
        build_summary m = some s →
        (s.requires_attention = true ↔ ∃ n, s.pain_scale = some n ∧ 8 ≤ n)) ∧
    evaluate_survey_progress goldenVariantHistory =
      .done { started_at_precision := some "exact",
              started_at_value := some "2025-09-01",
              still_pain := some true,
              pain_quality := some "Sharp?",
              pain_scale := some 2,
              requires_attention := false } := by
  constructor
  · intro m s h
    obtain ⟨prec, val, sp, pq, ps, rfl⟩ := build_summary_shape m s h
    cases ps with
    | none => simp [summaryOf]
    | some n => simp [summaryOf]
  · rfl

/-- Witness for C5 at a concrete answers map holding a scale-8 record. -/
theorem C5_requires_attention_iff_witness :
    (summaryOf none none none none (some 8)).requires_attention = true ↔
      ∃ n, (summaryOf none none none none (some 8)).pain_scale = some n ∧ 8 ≤ n :=
  C5_requires_attention_iff.1
    [("q5", .choiceRec "scale" "d" "8 - Hurts Whole Lot" (some 8))]
    (summaryOf none none none none (some 8)) rfl

/-- C6: during the evaluate replay of abdominal_questions, an absent or blank
answer fails with MISSING_ANSWER; a non-blank answer not among a choice/scale
node's option keys fails with INVALID_ANSWER; an answer to the exact-date
node q1a whose trimmed form does not match \d{4}-\d{2}-\d{2} fails with
DATE_FORMAT, while "2025-09-01" is accepted; and a step error surfaces as the
replay's failure. -/
theorem C6_evaluate_error_codes :
    (∀ (cursor : String) (node : Node) (answers : List (String × AnswerRecord))
        (step : HistoryStep),
        lookupA abdominal_questions cursor = some node →
        step.question_id = cursor →
        (node.qtype = "free_text" ∨ node.qtype = "single_choice" ∨ node.qtype = "scale") →
        (step.answer = none ∨ ∃ a, step.answer = some a ∧ pyStrip a = "") →
        stepEval cursor answers step = .err 400 .MISSING_ANSWER) ∧
    (∀ (cursor : String) (node : Node) (answers : List (String × AnswerRecord))
        (key : String),
        lookupA abdominal_questions cursor = some node →
        (node.qtype = "single_choice" ∨ node.qtype = "scale") →
        pyStrip key ≠ "" →
        lookupA node.options key = none →
        stepEval cursor answers ⟨cursor, some key⟩ = .err 400 .INVALID_ANSWER) ∧
    (∀ (answers : List (String × AnswerRecord)) (a : String),
        pyStrip a ≠ "" →
        isoDateMatch (pyStrip a) = false →
        stepEval "q1a" answers ⟨"q1a", some a⟩ = .err 400 .DATE_FORMAT) ∧
    (∀ answers, stepEval "q1a" answers ⟨"q1a", some "2025-09-01"⟩ =
        .ok (insertA answers "q1a" (.freeRec "2025-09-01")) (some "q2")) ∧
    (∀ cursor answers step rest s c,
        stepEval cursor answers step = .err s c →
        evalGo cursor answers (step :: rest) = .fail s c) := by
  refine ⟨?_, ?_, ?_, ?_, ?_⟩
  · intro cursor node answers step hlook hqid htype hblank
    unfold stepEval
    rw [hqid, hlook]
    rcases htype with hft | hsc | hsc
    · rcases hblank with hb | ⟨a, hb, hba⟩
      · simp [hft, hb]
      · simp [hft, hb, hba]
    · rcases hblank with hb | ⟨a, hb, hba⟩
      · simp [hsc, hb]
      · simp [hsc, hb, hba]
    · rcases hblank with hb | ⟨a, hb, hba⟩
      · simp [hsc, hb]
      · simp [hsc, hb, hba]
  · intro cursor node answers key hlook htype hkey hopt
    unfold stepEval
    simp only [HistoryStep.question_id, ne_eq, not_true_eq_false, reduceIte, hlook]
    rcases htype with hsc | hsc
    · simp [hsc, hkey, hopt]
    · simp [hsc, hkey, hopt]
  · intro answers a ha hdate
    unfold stepEval
    simp [ha, hdate, lookupA, mkFree]
  · intro answers
    rfl
  · intro cursor answers step rest s c h
    unfold evalGo
    rw [h]

/-- Witness for C6 at concrete steps of the abdominal section. -/
theorem C6_evaluate_error_codes_witness :
    stepEval "q2" [] ⟨"q2", none⟩ = .err 400 .MISSING_ANSWER ∧
    stepEval "q2" [] ⟨"q2", some "z"⟩ = .err 400 .INVALID_ANSWER ∧
    stepEval "q1a" [] ⟨"q1a", some "09/01/2025"⟩ = .err 400 .DATE_FORMAT ∧
    stepEval "q1a" [] ⟨"q1a", some "2025-09-01"⟩ =
      .ok [("q1a", .freeRec "2025-09-01")] (some "q2") ∧
    evalGo "q1a" [] [⟨"q1a", some "09/01/2025"⟩] = .fail 400 .DATE_FORMAT :=
  ⟨C6_evaluate_error_codes.1 "q2"
      (mkChoice "q2" "Do you still have pain?" "single_choice"
        [ ("a", ⟨"Yes. Go to #4.", some "q4"⟩),
          ("b", ⟨"No.", some "q3"⟩) ] none)
      [] ⟨"q2", none⟩ rfl rfl (Or.inr (Or.inl rfl)) (Or.inl rfl),
   C6_evaluate_error_codes.2.1 "q2"
      (mkChoice "q2" "Do you still have pain?" "single_choice"
        [ ("a", ⟨"Yes. Go to #4.", some "q4"⟩),
          ("b", ⟨"No.", some "q3"⟩) ] none)
      [] "z" rfl (Or.inl rfl) (by decide) rfl,
   C6_evaluate_error_codes.2.2.1 [] "09/01/2025" (by decide) (by decide),
   C6_evaluate_error_codes.2.2.2.1 [],
   C6_evaluate_error_codes.2.2.2.2 "q1a" [] ⟨"q1a", some "09/01/2025"⟩ [] 400 .DATE_FORMAT
     (C6_evaluate_error_codes.2.2.1 [] "09/01/2025" (by decide) (by decide))⟩

theorem lookupA_mem {κ α : Type} [DecidableEq κ] (l : List (κ × α)) (k : κ) (v : α)
    (h : lookupA l k = some v) : (k, v) ∈ l := by
  induction l with
  | nil => cases h
  | cons p rest ih =>
    obtain ⟨k', v'⟩ := p
    unfold lookupA at h
    split at h
    · rename_i heq
      injection h with h
      subst h heq
      exact List.mem_cons_self _ _
    · exact List.mem_cons_of_mem _ (ih h)

theorem lookupA_insertA_ne {κ α : Type} [DecidableEq κ] (l : List (κ × α))
    (key k : κ) (v : α) (h : k ≠ key) :
    lookupA (insertA l key v) k = lookupA l k := by
  induction l with
  | nil => simp [insertA, lookupA, Ne.symm h]
  | cons p rest ih =>
    obtain ⟨k', v'⟩ := p
    unfold insertA
    split
    · rename_i heq
      subst heq
      simp [lookupA, Ne.symm h]
    · unfold lookupA
      split
      · rfl
      · exact ih

theorem abdominal_node_id (c : String) (n : Node)
    (h : lookupA abdominal_questions c = some n) : n.id = c := by
  have hall : abdominal_questions.all (fun p => p.2.id == p.1) = true := rfl
  have hm := lookupA_mem _ _ _ h
  have := List.all_eq_true.mp hall _ hm
  exact eq_of_beq this

theorem abdominal_next_ne_q3a (c : String) (n : Node)
    (h : lookupA abdominal_questions c = some n) :
    n.next ≠ some "q3a" ∧
      ∀ (k : String) (o : OptionDef), lookupA n.options k = some o →
        o.next ≠ some "q3a" := by
  have hall := List.all_eq_true.mp (show abdominalNextsAvoidQ3a = true from rfl)
    _ (lookupA_mem _ _ _ h)
  rw [Bool.and_eq_true] at hall
  refine ⟨bne_iff_ne.mp hall.1, ?_⟩
  intro k o hko
  exact bne_iff_ne.mp (List.all_eq_true.mp hall.2 _ (lookupA_mem _ _ _ hko))

theorem stepEval_ok_spec (cursor : String) (answers : List (String × AnswerRecord))
    (step : HistoryStep) (a2 : List (String × AnswerRecord)) (nxt : Option String)
    (h : stepEval cursor answers step = .ok a2 nxt) :
    ∃ node, lookupA abdominal_questions cursor = some node ∧
      (∃ r, a2 = insertA answers cursor r) ∧
      (nxt = node.next ∨ ∃ k o, lookupA node.options k = some o ∧ nxt = o.next) := by
  unfold stepEval at h
  split at h
  · cases h
  · split at h
    · cases h
    · rename_i node hlook
      split at h
      · split at h
        · cases h
        · split at h
          · cases h
          · split at h
            · cases h
            · cases h
              exact ⟨node, hlook, ⟨_, rfl⟩, Or.inl rfl⟩
      · split at h
        · split at h
          · cases h
          · split at h
            · cases h
            · split at h
              · cases h
              · rename_i opt hoptlook
                cases h
                exact ⟨node, hlook, ⟨_, rfl⟩, Or.inr ⟨_, _, hoptlook, rfl⟩⟩
        · cases h

theorem evalGo_q3a_free :
    ∀ (steps : List HistoryStep) (cursor : String)
      (answers : List (String × AnswerRecord)),
      cursor ≠ "q3a" → lookupA answers "q3a" = none →
      (∀ n, evalGo cursor answers steps = .ask n → n.id ≠ "q3a") ∧
      (∀ s, evalGo cursor answers steps = .done s →
        ∃ m, build_summary m = some s ∧ lookupA m "q3a" = none) := by
  intro steps
  induction steps with
  | nil =>
    intro cursor answers hc _
    constructor
    · intro n h
      unfold evalGo at h
      split at h
      · rename_i node hlook
        injection h with h
        subst h
        rw [abdominal_node_id _ _ hlook]
        exact hc
      · cases h
    · intro s h
      unfold evalGo at h
      split at h <;> cases h
  | cons st rest ih =>
    intro cursor answers hc ha
    rcases hse : stepEval cursor answers st with ⟨s', c'⟩ | ⟨a2, nxt⟩
    · have heq : evalGo cursor answers (st :: rest) = .fail s' c' := by
        unfold evalGo; rw [hse]
      constructor
      · intro n h; rw [heq] at h; cases h
      · intro s h; rw [heq] at h; cases h
    · obtain ⟨node, hlook, ⟨r, rfl⟩, hnx⟩ := stepEval_ok_spec _ _ _ _ _ hse
      have ha2 : lookupA (insertA answers cursor r) "q3a" = none := by
        rw [lookupA_insertA_ne _ _ _ _ (Ne.symm hc)]; exact ha
      have hnext_ne : nxt ≠ some "q3a" := by
        rcases hnx with rfl | ⟨k, o, hko, rfl⟩
        · exact (abdominal_next_ne_q3a _ _ hlook).1
        · exact (abdominal_next_ne_q3a _ _ hlook).2 k o hko
      cases nxt with
      | none =>
        have heq : evalGo cursor answers (st :: rest) =
            (match build_summary (insertA answers cursor r) with
             | some s => EvalResult.done s
             | none => EvalResult.crash) := by
          unfold evalGo; rw [hse]
        constructor
        · intro n h
          rw [heq] at h
          split at h <;> cases h
        · intro s h
          rw [heq] at h
          split at h
          · rename_i sum hbs
            injection h with h
            subst h
            exact ⟨_, hbs, ha2⟩
          · cases h
      | some nid =>
        have hnid : nid ≠ "q3a" := fun hh => hnext_ne (by rw [hh])
        by_cases hmem : (lookupA abdominal_questions nid).isSome
        · have heq : evalGo cursor answers (st :: rest) =
              evalGo nid (insertA answers cursor r) rest := by
            conv_lhs => unfold evalGo
            rw [hse]
            simp [hmem]
          constructor
          · intro n h
            rw [heq] at h
            exact (ih nid _ hnid ha2).1 n h
          · intro s h
            rw [heq] at h
            exact (ih nid _ hnid ha2).2 s h
        · have heq : evalGo cursor answers (st :: rest) =
              .fail 500 .BROKEN_DEFINITION := by
            unfold evalGo; rw [hse]; simp [hmem]
          constructor
          · intro n h; rw [heq] at h; cases h
          · intro s h; rw [heq] at h; cases h

/-- C10: node q3a of abdominal_questions is unreachable: no node-level or
option-level next in the section refers to q3a (q3's exact-date option points
directly to q4), so for every history the evaluate replay never asks q3a and
any terminal summary is computed from an answer map with no q3a entry — the
exact stop date is never collected. -/
theorem C10_q3a_unreachable :
    abdominalNextsAvoidQ3a = true ∧
    lookupA abdominal_questions "q3" =
      some (mkChoice "q3" "When did the symptom stop?" "single_choice"
        [ ("a", ⟨"Exact date, if known", some "q4"⟩),
          ("b", ⟨"Approximate date", some "q3b"⟩) ] none) ∧
    (∀ (history : List HistoryStep) (n : Node),
        evaluate_survey_progress history = .ask n → n.id ≠ "q3a") ∧
    (∀ (history : List HistoryStep) (s : Summary),
        evaluate_survey_progress history = .done s →
        ∃ m, build_summary m = some s ∧ lookupA m "q3a" = none) := by
  refine ⟨rfl, rfl, ?_, ?_⟩
  · intro history n h
    exact (evalGo_q3a_free history START_ID [] (by decide) rfl).1 n h
  · intro history s h
    exact (evalGo_q3a_free history START_ID [] (by decide) rfl).2 s h

/-- Witness for C10: the empty history asks q1, whose id is not q3a. -/
theorem C10_q3a_unreachable_witness :
    (mkChoice "q1" "When did this symptom start?" "single_choice"
      [ ("a", ⟨"Exact date, if known", some "q1a"⟩),
        ("b", ⟨"Approximate date", some "q1b"⟩) ] none).id ≠ "q3a" :=
  C10_q3a_unreachable.2.2.1 [] _ rfl

theorem serializableE_append (a b : List (PyKey × PyVal)) :
    serializableE (a ++ b) = (serializableE a && serializableE b) := by
  induction a with
  | nil => simp [serializableE]
  | cons hd tl ih =>
    obtain ⟨k, v⟩ := hd
    simp [serializableE, ih, Bool.and_assoc]

theorem optEntry_serializable (k : String) (v : Option String) :
    serializableE (optEntry k v) = true := by
  cases v with
  | none => rfl
  | some s =>
    by_cases hs : s = "" <;>
      simp [optEntry, hs, serializableE, serializableV, serializableKey]

theorem optEntry_strkeys (k : String) (v : Option String) :
    (optEntry k v).all (fun e => match e.1 with | .kstr _ => true | _ => false) = true := by
  cases v with
  | none => rfl
  | some s =>
    by_cases hs : s = "" <;> simp [optEntry, hs]

theorem created_payload_checks (s : String) (ic er : Option String) :
    isDict (build_case_created_payload s ic er) = true ∧
    topKeysAllString (build_case_created_payload s ic er) = true ∧
    serializableV (build_case_created_payload s ic er) = true := by
  refine ⟨rfl, ?_, ?_⟩
  · unfold build_case_created_payload topKeysAllString
    simp [List.all_append, optEntry_strkeys]
  · unfold build_case_created_payload serializableV
    rw [serializableE_append, serializableE_append]
    simp [optEntry_serializable, serializableE, serializableV, serializableKey]

theorem intake_env_checks (s : String) (p : PyVal) (er : Option String)
    (hp : serializableV p = true) :
    isDict (PyVal.vdict ([(.kstr "schema_version", .vstr "intake.received.v1"),
        (.kstr "source", .vstr s), (.kstr "raw", p)] ++ optEntry "external_ref" er)) = true ∧
    topKeysAllString (PyVal.vdict ([(.kstr "schema_version", .vstr "intake.received.v1"),
        (.kstr "source", .vstr s), (.kstr "raw", p)] ++ optEntry "external_ref" er)) = true ∧
    serializableV (PyVal.vdict ([(.kstr "schema_version", .vstr "intake.received.v1"),
        (.kstr "source", .vstr s), (.kstr "raw", p)] ++ optEntry "external_ref" er)) = true := by
  refine ⟨rfl, ?_, ?_⟩
  · unfold topKeysAllString
    simp [List.all_append, optEntry_strkeys]
  · unfold serializableV
    rw [serializableE_append]
    simp [optEntry_serializable, serializableE, serializableV, serializableKey, hp]

theorem append_event_success (db : DB) (cid : Nat) (et : String) (p : PyVal)
    (act : String) (aid r : Option String) (occ : Option Nat) (now : Nat)
    (h1 : isDict p = true) (h2 : topKeysAllString p = true)
    (h3 : serializableV p = true) :
    append_event db cid et (some p) act aid r occ now =
      ({ db with
          events := db.events ++
            [⟨db.nextId, cid, et, (match occ with | none => now | some t => t),
               act, aid, r, p⟩],
          nextId := db.nextId + 1 },
       .ok ⟨db.nextId, cid, et, (match occ with | none => now | some t => t),
              act, aid, r, p⟩) := by
  unfold append_event
  simp [h1, h2, h3]

/-- C8: append_event fails with InvalidInput and writes no event row when
the payload is not an object, has a non-string (top-level) key, or contains a
value json.dumps cannot serialize; an omitted payload defaults to an empty
object and an omitted occurred_at defaults to the current time, after which
exactly one event row is written. -/
theorem C8_append_event_validation :
    (∀ (db : DB) (cid : Nat) (et : String) (p : PyVal) (act : String)
        (aid r : Option String) (occ : Option Nat) (now : Nat),
        isDict p = false ∨ topKeysAllString p = false ∨ serializableV p = false →
        (append_event db cid et (some p) act aid r occ now).1 = db ∧
        ∃ e, (append_event db cid et (some p) act aid r occ now).2 = .error e) ∧
    (∀ (db : DB) (cid : Nat) (et : String) (act : String) (aid r : Option String)
        (now : Nat),
        append_event db cid et none act aid r none now =
          ({ db with
              events := db.events ++
                [⟨db.nextId, cid, et, now, act, aid, r, .vdict []⟩],
              nextId := db.nextId + 1 },
           .ok ⟨db.nextId, cid, et, now, act, aid, r, .vdict []⟩)) := by
  constructor
  · intro db cid et p act aid r occ now h
    rcases h with h | h | h
    · unfold append_event
      simp [h]
    · by_cases hd : isDict p <;> unfold append_event <;> simp [h, hd]
    · by_cases hd : isDict p
      · by_cases hk : topKeysAllString p <;> unfold append_event <;> simp [h, hd, hk]
      · unfold append_event
        simp [hd]
  · intro db cid et act aid r now
    rfl

/-- C7 counterexample: an intake payload that is a dict containing a
non-JSON-serializable value passes the is-a-dict guard, creates the Case and
the case.created event, and then fails in the second append_event — the
operation raises instead of appending two events and returning the Case, so
the claim as stated does not hold for every object payload. -/
theorem C7_counterexample :
    (create_case_from_intake ⟨[], [], 0⟩ (some (.vdict [(.kstr "x", .vobj)]))
        "portal" none none "api" none none 3).2 =
      .error "payload is not JSON-serializable" ∧
    (create_case_from_intake ⟨[], [], 0⟩ (some (.vdict [(.kstr "x", .vobj)]))
        "portal" none none "api" none none 3).1 =
      ⟨[⟨0, 3, "open", none⟩],
       [⟨1, 0, "case.created", 3, "api", none, none,
          build_case_created_payload "portal" none none⟩], 2⟩ :=
  ⟨rfl, rfl⟩

/-- C7 (amended): create_case_from_intake fails with InvalidInput when the
intake payload is absent or not an object; otherwise, provided the intake
payload is JSON-serializable, it creates exactly one Case (status open, no
initial awareness, received_at the supplied or defaulted receipt time) and
appends exactly two events in order — case.created with the versioned
envelope, then intake.received carrying the raw payload — and returns the
Case. -/
theorem C7_create_case_amended :
    (∀ (db : DB) (source : String) (ic er : Option String) (act : String)
        (aid : Option String) (recv : Option Nat) (now : Nat),
        create_case_from_intake db none source ic er act aid recv now =
          (db, .error "intake payload must be a dict")) ∧
    (∀ (db : DB) (p : PyVal) (source : String) (ic er : Option String)
        (act : String) (aid : Option String) (recv : Option Nat) (now : Nat),
        isDict p = false →
        create_case_from_intake db (some p) source ic er act aid recv now =
          (db, .error "intake payload must be a dict")) ∧
    (∀ (db : DB) (p : PyVal) (source : String) (ic er : Option String)
        (act : String) (aid : Option String) (recv : Option Nat) (now : Nat),
        isDict p = true → serializableV p = true →
        create_case_from_intake db (some p) source ic er act aid recv now =
          ({ cases := db.cases ++
               [⟨db.nextId, (match recv with | none => now | some t => t),
                  "open", none⟩],
             events := db.events ++
               [⟨db.nextId + 1, db.nextId, "case.created", now, act, aid, none,
                  build_case_created_payload source ic er⟩,
                ⟨db.nextId + 2, db.nextId, "intake.received", now, act, aid, none,
                  .vdict ([(.kstr "schema_version", .vstr "intake.received.v1"),
                           (.kstr "source", .vstr source),
                           (.kstr "raw", p)] ++ optEntry "external_ref" er)⟩],
             nextId := db.nextId + 3 },
           .ok ⟨db.nextId, (match recv with | none => now | some t => t),
                  "open", none⟩)) := by
  refine ⟨?_, ?_, ?_⟩
  · intro db source ic er act aid recv now
    rfl
  · intro db p source ic er act aid recv now hd
    unfold create_case_from_intake
    simp [hd]
  · intro db p source ic er act aid recv now hd hs
    obtain ⟨hc1, hc2, hc3⟩ := created_payload_checks source ic er
    obtain ⟨he1, he2, he3⟩ := intake_env_checks source p er hs
    unfold create_case_from_intake
    simp only [hd, Bool.true_eq_false, if_false, reduceIte]
    rw [append_event_success _ _ _ _ _ _ _ _ _ hc1 hc2 hc3]
    simp only []
    rw [append_event_success _ _ _ _ _ _ _ _ _ he1 he2 he3]
    simp [List.append_assoc]

/-- Witness for C8: a vobj payload is rejected with no row written; an
omitted payload and occurred_at default to an empty dict and the current
time, writing one row. -/
theorem C8_append_event_validation_witness :
    (append_event ⟨[], [], 0⟩ 7 "note.added" (some .vobj) "system" none none none 5).1 =
      ⟨[], [], 0⟩ ∧
    (∃ e, (append_event ⟨[], [], 0⟩ 7 "note.added" (some .vobj) "system" none none none 5).2 =
      .error e) ∧
    append_event ⟨[], [], 0⟩ 7 "note.added" none "system" none none none 5 =
      (⟨[], [⟨0, 7, "note.added", 5, "system", none, none, .vdict []⟩], 1⟩,
       .ok ⟨0, 7, "note.added", 5, "system", none, none, .vdict []⟩) :=
  ⟨(C8_append_event_validation.1 ⟨[], [], 0⟩ 7 "note.added" .vobj "system"
      none none none 5 (Or.inl rfl)).1,
   (C8_append_event_validation.1 ⟨[], [], 0⟩ 7 "note.added" .vobj "system"
      none none none 5 (Or.inl rfl)).2,
   C8_append_event_validation.2 ⟨[], [], 0⟩ 7 "note.added" "system" none none 5⟩

/-- Witness for C7 at a concrete serializable intake payload. -/
theorem C7_create_case_amended_witness :
    create_case_from_intake ⟨[], [], 0⟩ (some (.vdict [(.kstr "k", .vstr "v")]))
        "portal" none none "api" none (some 2) 9 =
      (⟨[⟨0, 2, "open", none⟩],
        [⟨1, 0, "case.created", 9, "api", none, none,
           build_case_created_payload "portal" none none⟩,
         ⟨2, 0, "intake.received", 9, "api", none, none,
           .vdict ([(.kstr "schema_version", .vstr "intake.received.v1"),
                    (.kstr "source", .vstr "portal"),
                    (.kstr "raw", .vdict [(.kstr "k", .vstr "v")])] ++
                   optEntry "external_ref" none)⟩], 3⟩,
       .ok ⟨0, 2, "open", none⟩) :=
  C7_create_case_amended.2.2 ⟨[], [], 0⟩ (.vdict [(.kstr "k", .vstr "v")])
    "portal" none none "api" none (some 2) 9 rfl rfl

theorem lookupA_insertA_self {κ α : Type} [DecidableEq κ] (l : List (κ × α))
    (key : κ) (v : α) : lookupA (insertA l key v) key = some v := by
  induction l with
  | nil => simp [insertA, lookupA]
  | cons p rest ih =>
    obtain ⟨k', v'⟩ := p
    unfold insertA
    split
    · rename_i heq
      subst heq
      simp [lookupA]
    · rename_i hne
      unfold lookupA
      split
      · rename_i heq
        exact absurd heq hne
      · exact ih

theorem hlookup_halloc_self (h : PyHeap) (o : HObj) :
    hlookup (halloc h o).1 h.next = some o := by
  simp [halloc, hlookup, lookupA]

theorem hlookup_halloc_ne (h : PyHeap) (o : HObj) (b : Nat) (hb : b ≠ h.next) :
    hlookup (halloc h o).1 b = hlookup h b := by
  simp [halloc, hlookup, lookupA, Ne.symm hb]

theorem hlookup_hupdate_ne (h : PyHeap) (u : Nat) (o : HObj) (b : Nat)
    (hb : b ≠ u) : hlookup (hupdate h u o) b = hlookup h b :=
  lookupA_insertA_ne _ _ _ _ hb

theorem heapWF_lookup (h : PyHeap) (hwf : heapWF h = true) (a : Nat) (o : HObj)
    (hl : hlookup h a = some o) : a < h.next ∧ objBelowB o h.next = true := by
  have hm := lookupA_mem _ _ _ hl
  have hx := List.all_eq_true.mp hwf _ hm
  rw [Bool.and_eq_true] at hx
  exact ⟨of_decide_eq_true hx.1, hx.2⟩

theorem objBelowB_children (tg : String) (cs : List (String × Nat)) (n : Nat)
    (hb : objBelowB (.comp tg cs) n = true) : ∀ p ∈ cs, p.2 < n := by
  intro p hp
  exact of_decide_eq_true (List.all_eq_true.mp hb p hp)

theorem objBelowB_mono (o : HObj) (n m : Nat) (hnm : n ≤ m)
    (hb : objBelowB o n = true) : objBelowB o m = true := by
  cases o with
  | atom s => rfl
  | comp tg cs =>
    unfold objBelowB at hb ⊢
    rw [List.all_eq_true] at hb ⊢
    intro p hp
    exact decide_eq_true (lt_of_lt_of_le (of_decide_eq_true (hb p hp)) hnm)

theorem heapWF_halloc (h : PyHeap) (o : HObj) (hwf : heapWF h = true)
    (hb : objBelowB o h.next = true) : heapWF (halloc h o).1 = true := by
  unfold heapWF at hwf ⊢
  rw [List.all_eq_true] at hwf ⊢
  intro p hp
  simp only [halloc] at hp
  rw [Bool.and_eq_true]
  rcases List.mem_cons.mp hp with rfl | hp'
  · exact ⟨decide_eq_true (Nat.lt_succ_self _),
      objBelowB_mono _ _ _ (Nat.le_succ _) hb⟩
  · have hx := hwf p hp'
    rw [Bool.and_eq_true] at hx
    exact ⟨decide_eq_true (Nat.lt_succ_of_lt (of_decide_eq_true hx.1)),
      objBelowB_mono _ _ _ (Nat.le_succ _) hx.2⟩

theorem ext_reach : ∀ (f : Nat) (h1 h2 : PyHeap), heapWF h1 = true →
    h1.next ≤ h2.next →
    (∀ b, b < h1.next → hlookup h2 b = hlookup h1 b) →
    (∀ root t, root < h1.next → reachB f h2 root t = reachB f h1 root t) ∧
    (∀ cs t, (∀ p ∈ cs, p.2 < h1.next) → reachL f h2 cs t = reachL f h1 cs t) := by
  intro f
  induction f with
  | zero =>
    intro h1 h2 _ _ _
    exact ⟨fun _ _ _ => rfl, fun _ _ _ => rfl⟩
  | succ f ih =>
    intro h1 h2 hwf hn hpres
    obtain ⟨ihA, ihL⟩ := ih h1 h2 hwf hn hpres
    constructor
    · intro root t hroot
      unfold reachB
      rw [hpres root hroot]
      cases hl : hlookup h1 root with
      | none => rfl
      | some o =>
        cases o with
        | atom s => rfl
        | comp tg cs =>
          have hcs := objBelowB_children tg cs _ (heapWF_lookup h1 hwf root _ hl).2
          simp only []
          rw [ihL cs t hcs]
    · intro cs t hcs
      cases cs with
      | nil => rfl
      | cons p rest =>
        obtain ⟨k, a⟩ := p
        unfold reachL
        rw [ihA a t (hcs (k, a) (List.mem_cons_self _ _)),
            ihL rest t (fun q hq => hcs q (List.mem_cons_of_mem _ hq))]

theorem ext_read : ∀ (f : Nat) (h1 h2 : PyHeap), heapWF h1 = true →
    h1.next ≤ h2.next →
    (∀ b, b < h1.next → hlookup h2 b = hlookup h1 b) →
    (∀ root, root < h1.next → readA f h2 root = readA f h1 root) ∧
    (∀ cs, (∀ p ∈ cs, p.2 < h1.next) → readL f h2 cs = readL f h1 cs) := by
  intro f
  induction f with
  | zero =>
    intro h1 h2 _ _ _
    exact ⟨fun _ _ => rfl, fun _ _ => rfl⟩
  | succ f ih =>
    intro h1 h2 hwf hn hpres
    obtain ⟨ihA, ihL⟩ := ih h1 h2 hwf hn hpres
    constructor
    · intro root hroot
      unfold readA
      rw [hpres root hroot]
      cases hl : hlookup h1 root with
      | none => rfl
      | some o =>
        cases o with
        | atom s => rfl
        | comp tg cs =>
          have hcs := objBelowB_children tg cs _ (heapWF_lookup h1 hwf root _ hl).2
          simp only []
          rw [ihL cs hcs]
    · intro cs hcs
      cases cs with
      | nil => rfl
      | cons p rest =>
        obtain ⟨k, a⟩ := p
        unfold readL
        rw [ihA a (hcs (k, a) (List.mem_cons_self _ _)),
            ihL rest (fun q hq => hcs q (List.mem_cons_of_mem _ hq))]

theorem reach_bound : ∀ (f : Nat) (h : PyHeap), heapWF h = true →
    (∀ root t, root < h.next → reachB f h root t = true → t < h.next) ∧
    (∀ cs t, (∀ p ∈ cs, p.2 < h.next) → reachL f h cs t = true → t < h.next) := by
  intro f
  induction f with
  | zero =>
    intro h _
    exact ⟨fun _ _ _ hr => absurd hr Bool.false_ne_true,
           fun _ _ _ hr => absurd hr Bool.false_ne_true⟩
  | succ f ih =>
    intro h hwf
    obtain ⟨ihA, ihL⟩ := ih h hwf
    constructor
    · intro root t hroot hr
      unfold reachB at hr
      rcases Bool.or_eq_true_iff.mp hr with he | hm
      · exact eq_of_beq he ▸ hroot
      · cases hl : hlookup h root with
        | none => rw [hl] at hm; cases hm
        | some o =>
          cases o with
          | atom s => rw [hl] at hm; cases hm
          | comp tg cs =>
            rw [hl] at hm
            simp only [] at hm
            have hcs := objBelowB_children tg cs _ (heapWF_lookup h hwf root _ hl).2
            exact ihL cs t hcs hm
    · intro cs t hcs hr
      cases cs with
      | nil => cases hr
      | cons p rest =>
        obtain ⟨k, a⟩ := p
        unfold reachL at hr
        rcases Bool.or_eq_true_iff.mp hr with hx | hx
        · exact ihA a t (hcs (k, a) (List.mem_cons_self _ _)) hx
        · exact ihL rest t (fun q hq => hcs q (List.mem_cons_of_mem _ hq)) hx

theorem read_update_outside : ∀ (f : Nat) (h : PyHeap) (u : Nat) (o : HObj),
    (∀ root, reachB f h root u = false →
      readA f (hupdate h u o) root = readA f h root) ∧
    (∀ cs, reachL f h cs u = false →
      readL f (hupdate h u o) cs = readL f h cs) := by
  intro f
  induction f with
  | zero =>
    intro h u o
    exact ⟨fun _ _ => rfl, fun _ _ => rfl⟩
  | succ f ih =>
    intro h u o
    obtain ⟨ihA, ihL⟩ := ih h u o
    constructor
    · intro root hr
      unfold reachB at hr
      rw [Bool.or_eq_false_iff] at hr
      obtain ⟨hne, hm⟩ := hr
      have hru : root ≠ u := by
        intro hh
        rw [hh] at hne
        simp at hne
      unfold readA
      rw [hlookup_hupdate_ne h u o root hru]
      cases hl : hlookup h root with
      | none => rfl
      | some ob =>
        cases ob with
        | atom s => rfl
        | comp tg cs =>
          rw [hl] at hm
          simp only [] at hm
          simp only []
          rw [ihL cs hm]
    · intro cs hr
      cases cs with
      | nil => rfl
      | cons p rest =>
        obtain ⟨k, a⟩ := p
        unfold reachL at hr
        rw [Bool.or_eq_false_iff] at hr
        unfold readL
        rw [ihA a hr.1, ihL rest hr.2]

theorem reachL_exists : ∀ (g : Nat) (h : PyHeap) (cs : List (String × Nat)) (t : Nat),
    reachL g h cs t = true → ∃ p, p ∈ cs ∧ ∃ g2, reachB g2 h p.2 t = true := by
  intro g
  induction g with
  | zero => intro h cs t hr; cases hr
  | succ g ih =>
    intro h cs t hr
    cases cs with
    | nil => cases hr
    | cons p rest =>
      obtain ⟨k, a⟩ := p
      unfold reachL at hr
      rcases Bool.or_eq_true_iff.mp hr with hx | hx
      · exact ⟨(k, a), List.mem_cons_self _ _, g, hx⟩
      · obtain ⟨q, hq, g2, hg2⟩ := ih h rest t hx
        exact ⟨q, List.mem_cons_of_mem _ hq, g2, hg2⟩

theorem deepcopy_spec : ∀ (f : Nat),
    (∀ (h : PyHeap) (a : Nat) (h2 : PyHeap) (a2 : Nat), heapWF h = true →
      deepcopyA f h a = some (h2, a2) →
      heapWF h2 = true ∧ h.next ≤ h2.next ∧
      (∀ b, b < h.next → hlookup h2 b = hlookup h b) ∧
      h.next ≤ a2 ∧ a2 < h2.next ∧
      (∀ g t, reachB g h2 a2 t = true → h.next ≤ t)) ∧
    (∀ (h : PyHeap) (cs : List (String × Nat)) (h2 : PyHeap)
        (cs2 : List (String × Nat)), heapWF h = true →
      deepcopyL f h cs = some (h2, cs2) →
      heapWF h2 = true ∧ h.next ≤ h2.next ∧
      (∀ b, b < h.next → hlookup h2 b = hlookup h b) ∧
      (∀ p ∈ cs2, h.next ≤ p.2 ∧ p.2 < h2.next) ∧
      (∀ p ∈ cs2, ∀ g t, reachB g h2 p.2 t = true → h.next ≤ t)) := by
  intro f
  induction f with
  | zero =>
    refine ⟨?_, ?_⟩ <;> intro h x h2 x2 _ hd <;>
      simp [deepcopyA, deepcopyL] at hd
  | succ f ih =>
    obtain ⟨ihA, ihL⟩ := ih
    constructor
    · intro h a h2 a2 hwf hd
      unfold deepcopyA at hd
      cases hl : hlookup h a with
      | none => rw [hl] at hd; cases hd
      | some o =>
        rw [hl] at hd
        cases o with
        | atom s =>
          simp only [] at hd
          unfold halloc at hd
          injection hd with hd
          injection hd with hde1 hde2
          subst hde1
          subst hde2
          refine ⟨heapWF_halloc h _ hwf rfl, Nat.le_succ _, ?_, Nat.le_refl _,
                  Nat.lt_succ_self _, ?_⟩
          · intro b hb
            exact hlookup_halloc_ne h _ b (Nat.ne_of_lt hb)
          · intro g t hr
            cases g with
            | zero => exact absurd hr Bool.false_ne_true
            | succ g =>
              unfold reachB at hr
              rcases Bool.or_eq_true_iff.mp hr with he | hm
              · exact le_of_eq (eq_of_beq he)
              · simp [hlookup, lookupA] at hm
        | comp tg cs =>
          simp only [] at hd
          cases hdl : deepcopyL f h cs with
          | none => rw [hdl] at hd; cases hd
          | some pr =>
            obtain ⟨h1, cs1⟩ := pr
            rw [hdl] at hd
            simp only [] at hd
            unfold halloc at hd
            injection hd with hd
            injection hd with hde1 hde2
            subst hde1
            subst hde2
            obtain ⟨hF1, hF2, hF3, hF4, hF5⟩ := ihL h cs h1 cs1 hwf hdl
            have hob : objBelowB (.comp tg cs1) h1.next = true := by
              unfold objBelowB
              rw [List.all_eq_true]
              intro p hp
              exact decide_eq_true (hF4 p hp).2
            have hpres1 : ∀ b, b < h1.next →
                hlookup (⟨h1.next + 1, (h1.next, HObj.comp tg cs1) :: h1.mem⟩ : PyHeap) b =
                  hlookup h1 b := by
              intro b hb
              exact hlookup_halloc_ne h1 _ b (Nat.ne_of_lt hb)
            refine ⟨heapWF_halloc h1 _ hF1 hob, le_trans hF2 (Nat.le_succ _), ?_,
                    hF2, Nat.lt_succ_self _, ?_⟩
            · intro b hb
              rw [hpres1 b (lt_of_lt_of_le hb hF2)]
              exact hF3 b hb
            · intro g t hr
              cases g with
              | zero => exact absurd hr Bool.false_ne_true
              | succ g =>
                unfold reachB at hr
                rcases Bool.or_eq_true_iff.mp hr with he | hm
                · exact le_trans hF2 (le_of_eq (eq_of_beq he))
                · simp only [hlookup, lookupA] at hm
                  simp only [beq_self_eq_true, reduceIte] at hm
                  have hm2 : reachL g
                      (⟨h1.next + 1, (h1.next, HObj.comp tg cs1) :: h1.mem⟩ : PyHeap)
                      cs1 t = true := hm
                  obtain ⟨p, hp, g2, hg2⟩ := reachL_exists g _ cs1 t hm2
                  have hext := (ext_reach g2 h1
                      (⟨h1.next + 1, (h1.next, HObj.comp tg cs1) :: h1.mem⟩ : PyHeap)
                      hF1 (Nat.le_succ _) hpres1).1 p.2 t (hF4 p hp).2
                  rw [hext] at hg2
                  exact hF5 p hp g2 t hg2
    · intro h cs h2 cs2 hwf hd
      cases cs with
      | nil =>
        unfold deepcopyL at hd
        injection hd with hd
        injection hd with hde1 hde2
        subst hde1
        subst hde2
        exact ⟨hwf, Nat.le_refl _, fun _ _ => rfl,
               fun p hp => absurd hp (List.not_mem_nil _),
               fun p hp => absurd hp (List.not_mem_nil _)⟩
      | cons q rest =>
        obtain ⟨k, a⟩ := q
        unfold deepcopyL at hd
        cases hda : deepcopyA f h a with
        | none => rw [hda] at hd; cases hd
        | some prA =>
          obtain ⟨hA, a1⟩ := prA
          rw [hda] at hd
          simp only [] at hd
          cases hdl : deepcopyL f hA rest with
          | none => rw [hdl] at hd; cases hd
          | some prL =>
            obtain ⟨hB, rest2⟩ := prL
            rw [hdl] at hd
            simp only [] at hd
            injection hd with hd
            injection hd with hde1 hde2
            subst hde1
            subst hde2
            obtain ⟨a1', a2', a3', a4', a5', a6'⟩ := ihA h a hA a1 hwf hda
            obtain ⟨l1', l2', l3', l4', l5'⟩ := ihL hA rest hB rest2 a1' hdl
            refine ⟨l1', le_trans a2' l2', ?_, ?_, ?_⟩
            · intro b hb
              rw [l3' b (lt_of_lt_of_le hb a2')]
              exact a3' b hb
            · intro p hp
              rcases List.mem_cons.mp hp with rfl | hp2
              · exact ⟨a4', lt_of_lt_of_le a5' l2'⟩
              · obtain ⟨x1, x2⟩ := l4' p hp2
                exact ⟨le_trans a2' x1, x2⟩
            · intro p hp g t hr
              rcases List.mem_cons.mp hp with rfl | hp2
              · have hext := (ext_reach g hA hB a1' l2' l3').1 a1 t a5'
                rw [hext] at hr
                exact a6' g t hr
              · exact le_trans a2' (l5' p hp2 g t hr)

theorem deepcopy_val : ∀ (f : Nat),
    (∀ (h : PyHeap) (a : Nat) (h2 : PyHeap) (a2 : Nat), heapWF h = true →
      deepcopyA f h a = some (h2, a2) →
      ∀ g, readA g h2 a2 = readA g h a) ∧
    (∀ (h : PyHeap) (cs : List (String × Nat)) (h2 : PyHeap)
        (cs2 : List (String × Nat)), heapWF h = true →
      (∀ p ∈ cs, p.2 < h.next) →
      deepcopyL f h cs = some (h2, cs2) →
      ∀ g, readL g h2 cs2 = readL g h cs) := by
  intro f
  induction f with
  | zero =>
    constructor
    · intro h x h2 x2 _ hd
      simp [deepcopyA] at hd
    · intro h cs h2 cs2 _ _ hd
      simp [deepcopyL] at hd
  | succ f ih =>
    obtain ⟨ihA, ihL⟩ := ih
    constructor
    · intro h a h2 a2 hwf hd
      unfold deepcopyA at hd
      cases hl : hlookup h a with
      | none => rw [hl] at hd; cases hd
      | some o =>
        rw [hl] at hd
        cases o with
        | atom s =>
          simp only [] at hd
          unfold halloc at hd
          injection hd with hd
          injection hd with hde1 hde2
          subst hde1
          subst hde2
          intro g
          cases g with
          | zero => rfl
          | succ g =>
            unfold readA
            rw [hl]
            simp [hlookup, lookupA]
        | comp tg cs =>
          simp only [] at hd
          cases hdl : deepcopyL f h cs with
          | none => rw [hdl] at hd; cases hd
          | some pr =>
            obtain ⟨h1, cs1⟩ := pr
            rw [hdl] at hd
            simp only [] at hd
            unfold halloc at hd
            injection hd with hd
            injection hd with hde1 hde2
            subst hde1
            subst hde2
            obtain ⟨hF1, hF2, hF3, hF4, hF5⟩ := (deepcopy_spec f).2 h cs h1 cs1 hwf hdl
            have hcs := objBelowB_children tg cs _ (heapWF_lookup h hwf a _ hl).2
            have hval := ihL h cs h1 cs1 hwf hcs hdl
            have hpres1 : ∀ b, b < h1.next →
                hlookup (⟨h1.next + 1, (h1.next, HObj.comp tg cs1) :: h1.mem⟩ : PyHeap) b =
                  hlookup h1 b := by
              intro b hb
              exact hlookup_halloc_ne h1 _ b (Nat.ne_of_lt hb)
            intro g
            cases g with
            | zero => rfl
            | succ g =>
              unfold readA
              rw [hl]
              have hself : hlookup
                  (⟨h1.next + 1, (h1.next, HObj.comp tg cs1) :: h1.mem⟩ : PyHeap)
                  h1.next = some (.comp tg cs1) := by
                simp [hlookup, lookupA]
              rw [hself]
              simp only []
              rw [(ext_read g h1
                    (⟨h1.next + 1, (h1.next, HObj.comp tg cs1) :: h1.mem⟩ : PyHeap)
                    hF1 (Nat.le_succ _) hpres1).2 cs1 (fun p hp => (hF4 p hp).2),
                  hval g]
    · intro h cs h2 cs2 hwf hcs hd
      cases cs with
      | nil =>
        unfold deepcopyL at hd
        injection hd with hd
        injection hd with hde1 hde2
        subst hde1
        subst hde2
        intro g
        rfl
      | cons q rest =>
        obtain ⟨k, a⟩ := q
        unfold deepcopyL at hd
        cases hda : deepcopyA f h a with
        | none => rw [hda] at hd; cases hd
        | some prA =>
          obtain ⟨hA, a1⟩ := prA
          rw [hda] at hd
          simp only [] at hd
          cases hdl : deepcopyL f hA rest with
          | none => rw [hdl] at hd; cases hd
          | some prL =>
            obtain ⟨hB, rest2⟩ := prL
            rw [hdl] at hd
            simp only [] at hd
            injection hd with hd
            injection hd with hde1 hde2
            subst hde1
            subst hde2
            obtain ⟨a1', a2', a3', a4', a5', a6'⟩ := (deepcopy_spec f).1 h a hA a1 hwf hda
            obtain ⟨l1', l2', l3', l4', l5'⟩ := (deepcopy_spec f).2 hA rest hB rest2 a1' hdl
            have hrest : ∀ p ∈ rest, p.2 < h.next :=
              fun p hp => hcs p (List.mem_cons_of_mem _ hp)
            have hvA := ihA h a hA a1 hwf hda
            have hvL := ihL hA rest hB rest2 a1'
              (fun p hp => lt_of_lt_of_le (hrest p hp) a2') hdl
            intro g
            cases g with
            | zero => rfl
            | succ g =>
              unfold readL
              rw [(ext_read g hA hB a1' l2' l3').1 a1 a5', hvA g, hvL g,
                  (ext_read g h hA hwf a2' a3').2 rest hrest]

/-- C9: copy isolation of the in-memory run store.  A record fetched by
get_run is a deep copy living entirely in fresh addresses, so (1) mutating
any address reachable from the returned handle never changes what a read of
the stored root returns; (2) the fetched copy denotes exactly the stored
value and the store bindings are untouched; (3)/(4) after create_run or
replace_run, mutating any address reachable from the record the caller
passed in never changes what a read of the newly stored root returns. -/
theorem C9_store_copy_isolation :
    (∀ (fuel : Nat) (st : StoreState) (rid : String) (st2 : StoreState)
        (a2 root u : Nat) (o : HObj) (g gr : Nat),
        storeWF st = true →
        lookupA st.runs rid = some root →
        get_run fuel st rid = some (st2, a2) →
        reachB g st2.heap a2 u = true →
        readA gr (hupdate st2.heap u o) root = readA gr st2.heap root) ∧
    (∀ (fuel : Nat) (st : StoreState) (rid : String) (st2 : StoreState)
        (a2 root : Nat),
        storeWF st = true →
        lookupA st.runs rid = some root →
        get_run fuel st rid = some (st2, a2) →
        st2.runs = st.runs ∧
        ∀ g, readA g st2.heap a2 = readA g st.heap root ∧
             readA g st2.heap root = readA g st.heap root) ∧
    (∀ (fuel : Nat) (st : StoreState) (rid : String) (root : Nat)
        (st2 : StoreState) (root2 u : Nat) (o : HObj) (g gr : Nat),
        storeWF st = true →
        root < st.heap.next →
        create_run fuel st rid root = some st2 →
        lookupA st2.runs rid = some root2 →
        reachB g st.heap root u = true →
        readA gr (hupdate st2.heap u o) root2 = readA gr st2.heap root2) ∧
    (∀ (fuel : Nat) (st : StoreState) (rid : String) (root : Nat)
        (st2 : StoreState) (root2 u : Nat) (o : HObj) (g gr : Nat),
        storeWF st = true →
        root < st.heap.next →
        replace_run fuel st rid root = some st2 →
        lookupA st2.runs rid = some root2 →
        reachB g st.heap root u = true →
        readA gr (hupdate st2.heap u o) root2 = readA gr st2.heap root2) := by
  have hfresh : ∀ (h1 hc : PyHeap) (a1 u : Nat),
      heapWF h1 = true → h1.next ≤ hc.next →
      (∀ b, b < h1.next → hlookup hc b = hlookup h1 b) →
      h1.next ≤ u →
      ∀ (gr root : Nat) (o : HObj), root < h1.next →
        readA gr (hupdate hc u o) root = readA gr hc root := by
    intro h1 hc a1 u hH hn hpres hu gr root o hroot
    have hnr : reachB gr hc root u = false := by
      cases hx : reachB gr hc root u
      · rfl
      · exfalso
        rw [(ext_reach gr h1 hc hH hn hpres).1 root u hroot] at hx
        exact absurd ((reach_bound gr h1 hH).1 root u hroot hx)
          (Nat.not_lt.mpr hu)
    exact (read_update_outside gr hc u o).1 root hnr
  refine ⟨?_, ?_, ?_, ?_⟩
  · intro fuel st rid st2 a2 root u o g gr hwf hrid hget hreach
    rw [storeWF, Bool.and_eq_true] at hwf
    obtain ⟨hH, hR⟩ := hwf
    have hroot : root < st.heap.next :=
      of_decide_eq_true (List.all_eq_true.mp hR _ (lookupA_mem _ _ _ hrid))
    unfold get_run at hget
    rw [hrid] at hget
    simp only [] at hget
    cases hdc : deepcopyA fuel st.heap root with
    | none => rw [hdc] at hget; cases hget
    | some pr =>
      obtain ⟨h1, a1⟩ := pr
      rw [hdc] at hget
      simp only [] at hget
      injection hget with hget
      injection hget with hge1 hge2
      subst hge1
      subst hge2
      obtain ⟨c1, c2, c3, c4, c5, c6⟩ := (deepcopy_spec fuel).1 st.heap root h1 a1 hH hdc
      exact hfresh st.heap h1 a1 u hH c2 c3 (c6 g u hreach) gr root o hroot
  · intro fuel st rid st2 a2 root hwf hrid hget
    rw [storeWF, Bool.and_eq_true] at hwf
    obtain ⟨hH, hR⟩ := hwf
    have hroot : root < st.heap.next :=
      of_decide_eq_true (List.all_eq_true.mp hR _ (lookupA_mem _ _ _ hrid))
    unfold get_run at hget
    rw [hrid] at hget
    simp only [] at hget
    cases hdc : deepcopyA fuel st.heap root with
    | none => rw [hdc] at hget; cases hget
    | some pr =>
      obtain ⟨h1, a1⟩ := pr
      rw [hdc] at hget
      simp only [] at hget
      injection hget with hget
      injection hget with hge1 hge2
      subst hge1
      subst hge2
      obtain ⟨c1, c2, c3, c4, c5, c6⟩ := (deepcopy_spec fuel).1 st.heap root h1 a1 hH hdc
      refine ⟨rfl, ?_⟩
      intro g
      exact ⟨(deepcopy_val fuel).1 st.heap root h1 a1 hH hdc g,
             (ext_read g st.heap h1 hH c2 c3).1 root hroot⟩
  · intro fuel st rid root st2 root2 u o g gr hwf hroot hcr hrid2 hreach
    rw [storeWF, Bool.and_eq_true] at hwf
    obtain ⟨hH, hR⟩ := hwf
    unfold create_run at hcr
    split at hcr
    · cases hcr
    · cases hdc : deepcopyA fuel st.heap root with
      | none => rw [hdc] at hcr; cases hcr
      | some pr =>
        obtain ⟨h1, a1⟩ := pr
        rw [hdc] at hcr
        simp only [] at hcr
        injection hcr with hcr
        subst hcr
        rw [show (⟨insertA st.runs rid a1, h1⟩ : StoreState).runs =
              insertA st.runs rid a1 from rfl,
            lookupA_insertA_self] at hrid2
        injection hrid2 with hrid2
        subst hrid2
        obtain ⟨c1, c2, c3, c4, c5, c6⟩ := (deepcopy_spec fuel).1 st.heap root h1 a1 hH hdc
        have hu : u < st.heap.next := (reach_bound g st.heap hH).1 root u hroot hreach
        have hnr : reachB gr h1 a1 u = false := by
          cases hx : reachB gr h1 a1 u
          · rfl
          · exfalso
            exact absurd (c6 gr u hx) (Nat.not_le.mpr hu)
        exact (read_update_outside gr h1 u o).1 a1 hnr
  · intro fuel st rid root st2 root2 u o g gr hwf hroot hcr hrid2 hreach
    rw [storeWF, Bool.and_eq_true] at hwf
    obtain ⟨hH, hR⟩ := hwf
    unfold replace_run at hcr
    split at hcr
    · cases hdc : deepcopyA fuel st.heap root with
      | none => rw [hdc] at hcr; cases hcr
      | some pr =>
        obtain ⟨h1, a1⟩ := pr
        rw [hdc] at hcr
        simp only [] at hcr
        injection hcr with hcr
        subst hcr
        rw [show (⟨insertA st.runs rid a1, h1⟩ : StoreState).runs =
              insertA st.runs rid a1 from rfl,
            lookupA_insertA_self] at hrid2
        injection hrid2 with hrid2
        subst hrid2
        obtain ⟨c1, c2, c3, c4, c5, c6⟩ := (deepcopy_spec fuel).1 st.heap root h1 a1 hH hdc
        have hu : u < st.heap.next := (reach_bound g st.heap hH).1 root u hroot hreach
        have hnr : reachB gr h1 a1 u = false := by
          cases hx : reachB gr h1 a1 u
          · rfl
          · exfalso
            exact absurd (c6 gr u hx) (Nat.not_le.mpr hu)
        exact (read_update_outside gr h1 u o).1 a1 hnr
    · cases hcr

/-- Witness for C9: a one-record store; overwriting the fetched copy (its
root, address 1) leaves the read of the stored root (address 0) unchanged. -/
theorem C9_store_copy_isolation_witness :
    readA 1 (hupdate (⟨2, [(1, .atom "a"), (0, .atom "a")]⟩ : PyHeap) 1 (.atom "b")) 0 =
      readA 1 (⟨2, [(1, .atom "a"), (0, .atom "a")]⟩ : PyHeap) 0 :=
  C9_store_copy_isolation.1 5 ⟨[("r1", 0)], ⟨1, [(0, .atom "a")]⟩⟩ "r1"
    ⟨[("r1", 0)], ⟨2, [(1, .atom "a"), (0, .atom "a")]⟩⟩ 1 0 1 (.atom "b") 1 1
    rfl rfl rfl rfl
